import Mathlib

/-!
# Verification of `closed_book_processing.py` (CCQA closed-book formatting)

Shallow embedding of the script's two core functions, `extract_text` and
`generate_closed_book_format`, plus the `main` driver, together with proofs
settling the frozen claims about them.

External collaborators are modelled from their documented semantics:
* `lxml.etree.HTML` + `itertext` (lenient HTML fragment parsing),
* Python's `html.unescape` (WHATWG character-reference decoding),
* the `ascii`/`xmlcharrefreplace` codec round-trip,
* `argparse.Namespace` attribute access and the filesystem calls in `main`.
Each model's doc comment states the fidelity restrictions.
-/

namespace CCQA

/-! ## Characters and small helpers -/

/-- `input_text.replace("\n", "").replace("\r", "")`: removing every occurrence
of a single character equals filtering it out. -/
def removeNewlines (s : String) : String :=
  String.mk (s.data.filter (fun c => !(c == '\n' || c == '\r')))

/-- Blank characters as recognised by libxml2's `IS_BLANK` at document start. -/
def isBlankChar (c : Char) : Bool :=
  c == ' ' || c == '\t' || c == '\n' || c == '\r'

/-- The decimal digit characters, used to model Python's `str(n)` for the
numeric character references produced by `xmlcharrefreplace`. -/
def digitChar (n : Nat) : Char :=
  match n with
  | 0 => '0' | 1 => '1' | 2 => '2' | 3 => '3' | 4 => '4'
  | 5 => '5' | 6 => '6' | 7 => '7' | 8 => '8' | _ => '9'

/-- Decimal representation of `n` (most significant digit first), fuel-based so
that it is structurally recursive. `decRepr` supplies enough fuel. -/
def decReprAux : Nat → Nat → List Char
  | 0, _ => []
  | f + 1, n => if n < 10 then [digitChar n] else decReprAux f (n / 10) ++ [digitChar (n % 10)]

/-- Decimal representation of a natural number, as in Python's `str(n)`. -/
def decRepr (n : Nat) : List Char := decReprAux (n + 1) n

/-- Numeric value of a digit string, as read by a character-reference decoder. -/
def decVal (ds : List Char) : Nat :=
  ds.foldl (fun a c => 10 * a + (c.toNat - 48)) 0

/-! ## Model of Python's `html.unescape`

`html.unescape` replaces character references by the characters they denote,
following the WHATWG rules: a numeric reference `&#N;` in the range
U+0080..U+009F is remapped through the Windows-1252 table, `&#0;` becomes
U+FFFD, out-of-range and surrogate values become U+FFFD, references to the
WHATWG invalid codepoints (non-whitespace controls, noncharacters) decode
to the empty string, and otherwise the scalar value `N` itself is
produced.  Named references are resolved against
the HTML5 entity table; the model's table is restricted to the entities
exercised by this development (`amp`, `lt`, `gt`, `quot`, `eacute`).
Unmatched ampersands are left in place, exactly as `html.unescape` leaves
text that does not form a known reference.  Hexadecimal references and the
semicolon-less reference forms accepted by `html.unescape` are outside the
model: no input considered here contains them. -/

/-- The non-identity part of WHATWG's `&#N;` remapping for N in 128..159
(Windows-1252); values in the range without an entry map to themselves. -/
def cp1252 (n : Nat) : Char :=
  if n = 128 then '€' else if n = 130 then '‚' else if n = 131 then 'ƒ'
  else if n = 132 then '„' else if n = 133 then '…' else if n = 134 then '†'
  else if n = 135 then '‡' else if n = 136 then 'ˆ' else if n = 137 then '‰'
  else if n = 138 then 'Š' else if n = 139 then '‹' else if n = 140 then 'Œ'
  else if n = 142 then 'Ž' else if n = 145 then '‘' else if n = 146 then '’'
  else if n = 147 then '“' else if n = 148 then '”' else if n = 149 then '•'
  else if n = 150 then '–' else if n = 151 then '—' else if n = 152 then '˜'
  else if n = 153 then '™' else if n = 154 then 'š' else if n = 155 then '›'
  else if n = 156 then 'œ' else if n = 158 then 'ž' else if n = 159 then 'Ÿ'
  else Char.ofNat n

/-- WHATWG's invalid-codepoint set (Python's `_invalid_codepoints`): C0
controls other than whitespace, DEL and the C1 range, noncharacters
U+FDD0..U+FDEF, and the codepoints ending in FFFE or FFFF.  A numeric
character reference to one of these decodes to the empty string (for
0x80..0x9F the Windows-1252 remap in `_invalid_charrefs` wins first). -/
def invalidCodepoint (n : Nat) : Prop :=
  (1 ≤ n ∧ n ≤ 8) ∨ n = 11 ∨ (14 ≤ n ∧ n ≤ 31) ∨ (127 ≤ n ∧ n ≤ 159)
  ∨ (64976 ≤ n ∧ n ≤ 65007) ∨ n % 65536 = 65534 ∨ n % 65536 = 65535

instance (n : Nat) : Decidable (invalidCodepoint n) := by
  unfold invalidCodepoint
  infer_instance

/-- WHATWG decoding of a numeric character reference value, as Python's
`_replace_charref` performs it: first the `_invalid_charrefs` table
(0 → U+FFFD, 13 → carriage return, 0x80..0x9F → Windows-1252), then
surrogates and out-of-range values → U+FFFD, then the invalid codepoints →
empty string, else the referenced character itself. -/
def decodeCharref (n : Nat) : List Char :=
  if n = 0 then ['�']
  else if n = 13 then ['\r']
  else if 128 ≤ n ∧ n ≤ 159 then [cp1252 n]
  else if (55296 ≤ n ∧ n ≤ 57343) ∨ 1114112 ≤ n then ['�']
  else if invalidCodepoint n then []
  else [Char.ofNat n]

/-- The named entities needed by this development (HTML5 table restriction). -/
def namedEntities : List (String × Char) :=
  [("amp", '&'), ("lt", '<'), ("gt", '>'), ("quot", '"'), ("eacute", 'é')]

def lookupEntity (name : String) : Option Char :=
  (namedEntities.find? (fun p => p.1 == name)).map (fun p => p.2)

/-- Attempt to read one character reference in `cs`, the text that follows an
ampersand.  On success, returns the decoded replacement (zero or one
characters) and the number of characters of `cs` consumed. -/
def entityAt (cs : List Char) : Option (List Char × Nat) :=
  match cs with
  | '#' :: rest =>
    let ds := rest.takeWhile Char.isDigit
    if ds.isEmpty then none
    else
      match rest.drop ds.length with
      | ';' :: _ => some (decodeCharref (decVal ds), 1 + ds.length + 1)
      | _ => none
  | _ =>
    let name := cs.takeWhile (fun c => c.isAlpha || c.isDigit)
    if name.isEmpty then none
    else
      match cs.drop name.length with
      | ';' :: _ =>
        match lookupEntity (String.mk name) with
        | some c => some ([c], name.length + 1)
        | none => none
      | _ => none

/-- Character-reference decoding over a character list, fuel-based so that
it is structurally recursive (each step consumes at least one character, so
`cs.length` fuel is always enough; see `unescapeChars`). -/
def unescapeAux : Nat → List Char → List Char
  | 0, cs => cs
  | _ + 1, [] => []
  | fuel + 1, c :: rest =>
    if c = '&' then
      match entityAt rest with
      | some (e, n) => e ++ unescapeAux fuel (rest.drop n)
      | none => '&' :: unescapeAux fuel rest
    else c :: unescapeAux fuel rest

/-- Character-reference decoding over a character list (`html.unescape`). -/
def unescapeChars (cs : List Char) : List Char := unescapeAux cs.length cs

/-- Model of Python's `html.unescape`. -/
def htmlUnescape (s : String) : String := String.mk (unescapeChars s.data)

/-! ## Model of `text.encode("ascii", "xmlcharrefreplace").decode("utf-8")`

The `ascii` codec with the `xmlcharrefreplace` error handler keeps every
character below U+0080 and replaces every other character by its decimal
numeric character reference `&#N;`; decoding the resulting ASCII bytes as
UTF-8 gives back exactly that string. -/

def xmlcharrefChars (cs : List Char) : List Char :=
  cs.flatMap (fun c =>
    if c.toNat ≤ 127 then [c] else '&' :: '#' :: (decRepr c.toNat ++ [';']))

def xmlcharref (s : String) : String := String.mk (xmlcharrefChars s.data)

/-! ## Model of `re.sub(" +", " ", text)` -/

def collapseAux : Bool → List Char → List Char
  | _, [] => []
  | prevSpace, c :: rest =>
    if c = ' ' then
      if prevSpace then collapseAux true rest else ' ' :: collapseAux true rest
    else c :: collapseAux false rest

/-- `re.sub(" +", " ", text)`: every maximal run of ASCII spaces becomes a
single space; all other characters (tabs included) are untouched. -/
def collapseSpaces (s : String) : String := String.mk (collapseAux false s.data)

/-! ## Model of `" ".join(text_root.itertext())` and `etree.HTML` -/

/-- `" ".join(chunks)`. -/
def joinSpace : List String → String
  | [] => ""
  | [x] => x
  | x :: rest => x ++ " " ++ joinSpace rest

/-- Split a character stream into the text segments lying outside `<...>`
tags, dropping the tags themselves.  The Boolean is true while inside a tag;
characters of an unterminated trailing tag are dropped (lenient recovery). -/
def splitTagsAux : Bool → List Char → List Char → List (List Char)
  | _, [], acc => [acc.reverse]
  | false, c :: rest, acc =>
    if c = '<' then acc.reverse :: splitTagsAux true rest []
    else splitTagsAux false rest (c :: acc)
  | true, c :: rest, acc =>
    if c = '>' then splitTagsAux false rest acc
    else splitTagsAux true rest acc

def splitTags (cs : List Char) : List (List Char) := splitTagsAux false cs []

/-- Model of `lxml.etree.HTML(s)` followed by `itertext()`:
* `etree.HTML` returns `None` (no parse tree) when the document is empty —
  the input is empty or consists only of leading blanks, which the parser
  skips before looking for content; the model returns `none` exactly then;
* otherwise the lenient parser recovers a tree whose text nodes are, for the
  fragment shapes exercised here, the non-empty segments of the input lying
  outside `<...>` tags, with character references decoded by the parser;
  `itertext()` yields them in document order.
The model covers inputs made of plain text, character references and simple
tags; exotic constructs (comments, CDATA, script contents, unterminated
entities) and text containing `IS_CHAR`-invalid control characters (libxml2
terminates character data at NUL and drops other invalid controls, which
this model does not reproduce) are outside the model and outside every
claim. -/
def htmlTexts (s : String) : Option (List String) :=
  let cs := s.data.dropWhile isBlankChar
  if cs.isEmpty then none
  else
    some (((splitTags cs).filter (fun chunk => !chunk.isEmpty)).map
      (fun chunk => String.mk (unescapeChars chunk)))

/-! ## `extract_text` -/

/-- Embedding of `extract_text` (closed_book_processing.py, lines 19-37).
`none` models Python's `None` return (the `NoText` signal):

    input_text = input_text.replace("\n", "").replace("\r", "")
    if keep_markup:
        text = html.unescape(input_text)
    elif not keep_markup:
        text_root = etree.HTML(input_text)
        if text_root is None:
            return None
        text = " ".join(text_root.itertext())
        text = re.sub(" +", " ", text)
        text = text.encode("ascii", "xmlcharrefreplace").decode("utf-8")
        text = html.unescape(text)
    return text
-/
def extract_text (input_text : String) (keep_markup : Bool := false) : Option String :=
  let cleaned := removeNewlines input_text
  if keep_markup then
    some (htmlUnescape cleaned)
  else
    match htmlTexts cleaned with
    | none => none
    | some chunks =>
      some (htmlUnescape (xmlcharref (collapseSpaces (joinSpace chunks))))

/-! ## JSON values and Python dict semantics

A line of the input file is modelled as an already-parsed JSON value
(`json.loads`; a line that is not valid JSON aborts the whole task and is
outside the claims, which all speak of lines that parse).  Only the JSON
shapes the script can meet are needed: strings, arrays and objects. -/

inductive JValue where
  | s (str : String)
  | arr (elems : List JValue)
  | obj (fields : List (String × JValue))

/-- Lookup in a parsed JSON object (Python `d[k]` / `k in d.keys()`; the
parsed dict has no duplicate keys, so first-match lookup is exact). -/
def objLookup : List (String × JValue) → String → Option JValue
  | [], _ => none
  | (k2, v) :: rest, k => if k == k2 then some v else objLookup rest k

/-- Python subscript `v[k]`: `KeyError` on a missing key, `TypeError` when
`v` is not a dict. -/
def getKey (v : JValue) (k : String) : Except String JValue :=
  match v with
  | .obj fields =>
    match objLookup fields k with
    | some w => .ok w
    | none => .error ("KeyError: " ++ k)
  | _ => .error "TypeError: not a dict"

/-- Iterating a JSON value as the script iterates `Questions`/`Answers`:
the corpus stores them as arrays; any other shape is a type error. -/
def asArr : JValue → Except String (List JValue)
  | .arr l => .ok l
  | _ => .error "TypeError: not a list"

/-- The per-file output: a Python `dict` is insertion-ordered and
assignment replaces the value of an existing key in place. -/
abbrev Dict := List (String × List String)

/-- `output[question_text] = answer_list` on a Python dict. -/
def dictInsert (d : Dict) (k : String) (v : List String) : Dict :=
  if d.any (fun p => p.1 == k) then
    d.map (fun p => if p.1 == k then (k, v) else p)
  else d ++ [(k, v)]

def dictLookup : Dict → String → Option (List String)
  | [], _ => none
  | (k2, v) :: rest, k => if k == k2 then some v else dictLookup rest k

/-! ## `generate_closed_book_format` -/

/-- One markup field's contribution to `question_text` (lines 59-67):

    if key in question.keys():
        extracted_text = extract_text(question[key], keep_markup=keep_markup)
        if extracted_text is not None:
            question_text += extracted_text + suffix

with `suffix = " "` for `name_markup` and `suffix = ""` for `text_markup`.
A present field whose value is not a string makes `extract_text` raise
(`str.replace` on a non-string). -/
def markupField (km : Bool) (fields : List (String × JValue)) (key suffix : String) :
    Except String String :=
  match objLookup fields key with
  | none => .ok ""
  | some (.s raw) =>
    .ok (match extract_text raw km with
         | some t => t ++ suffix
         | none => "")
  | some _ => .error "AttributeError: replace"

/-- `question_text` as accumulated by lines 56-67; `question.keys()` on a
non-dict raises. -/
def buildQuestionText (km : Bool) (q : JValue) : Except String String :=
  match q with
  | .obj fields =>
    match markupField km fields "name_markup" " " with
    | .error e => .error e
    | .ok part1 =>
      match markupField km fields "text_markup" "" with
      | .error e => .error e
      | .ok part2 => .ok (part1 ++ part2)
  | _ => .error "AttributeError: keys"

/-- One answer's cleaned text (lines 70-76):

    if "text_markup" in answer.keys():
        answer_text = extract_text(answer["text_markup"], keep_markup=keep_markup)
    else:
        answer_text = None
-/
def answerText (km : Bool) (a : JValue) : Except String (Option String) :=
  match a with
  | .obj fields =>
    match objLookup fields "text_markup" with
    | some (.s raw) => .ok (extract_text raw km)
    | some _ => .error "AttributeError: replace"
    | none => .ok none
  | _ => .error "AttributeError: keys"

/-- The `for answer in question["Answers"]` loop body (lines 69-79):
`if answer_text:` keeps only a non-`None`, non-empty cleaned text. -/
def collectAnswers (km : Bool) (acc : List String) : List JValue → Except String (List String)
  | [] => .ok acc
  | a :: rest =>
    match answerText km a with
    | .error e => .error e
    | .ok t? =>
      match t? with
      | some t => if t = "" then collectAnswers km acc rest
                  else collectAnswers km (acc ++ [t]) rest
      | none => collectAnswers km acc rest

/-- `answer_list` for one question: `question["Answers"]` is read only when
`len(question_text) > 0` (see `processQuestion`); a missing `Answers` key
raises there. -/
def buildAnswerList (km : Bool) (q : JValue) : Except String (List String) :=
  match getKey q "Answers" with
  | .error e => .error e
  | .ok av =>
    match asArr av with
    | .error e => .error e
    | .ok answers => collectAnswers km [] answers

/-- The `for question in questions` loop body (lines 55-82):

    if len(question_text) > 0:
        ... build answer_list ...
    if question_text and answer_list:
        output[question_text] = answer_list
-/
def processQuestion (km : Bool) (out : Dict) (q : JValue) : Except String Dict :=
  match buildQuestionText km q with
  | .error e => .error e
  | .ok qt =>
    match (if qt.length > 0 then buildAnswerList km q else .ok []) with
    | .error e => .error e
    | .ok al => .ok (if qt ≠ "" ∧ al ≠ [] then dictInsert out qt al else out)

def foldQuestions (km : Bool) (out : Dict) : List JValue → Except String Dict
  | [] => .ok out
  | q :: rest =>
    match processQuestion km out q with
    | .error e => .error e
    | .ok out2 => foldQuestions km out2 rest

/-- `questions = content["Questions"]` followed by the question loop. -/
def processQuestions (km : Bool) (out : Dict) (line : JValue) : Except String Dict :=
  match getKey line "Questions" with
  | .error e => .error e
  | .ok qv =>
    match asArr qv with
    | .error e => .error e
    | .ok qs => foldQuestions km out qs

/-- One line of the file (lines 46-82):

    content = json.loads(website)
    if only_english and content["Fasttext_language"] != "en":
        continue
    questions = content["Questions"]
    ...

Python's `and` short-circuits: the language tag is read only when
`only_english` is true; the comparison with `"en"` is false for any
non-string value. -/
def isEn : JValue → Bool
  | .s "en" => true
  | _ => false

def processLine (onlyEnglish km : Bool) (out : Dict) (line : JValue) : Except String Dict :=
  if onlyEnglish then
    match getKey line "Fasttext_language" with
    | .error e => .error e
    | .ok lang =>
      if isEn lang then processQuestions km out line
      else .ok out
  else processQuestions km out line

def foldLines (onlyEnglish km : Bool) (out : Dict) : List JValue → Except String Dict
  | [] => .ok out
  | l :: rest =>
    match processLine onlyEnglish km out l with
    | .error e => .error e
    | .ok out2 => foldLines onlyEnglish km out2 rest

/-- Embedding of `generate_closed_book_format` (lines 39-86) on one input
file, given as its list of parsed lines; the result is the Output Mapping
the function serialises to the output path, or the exception that aborts
the task. -/
def generate_closed_book_format (lines : List JValue) (only_english : Bool := true)
    (keep_markup : Bool := false) : Except String Dict :=
  foldLines only_english keep_markup [] lines

/-! ## `main` (lines 89-105) -/

/-- The attribute destinations the `ArgumentParser` defines on the parsed
namespace: one per `add_argument` call (lines 108-125). -/
def parserDests : List String :=
  ["input_folder", "output_folder", "only_english", "keep_markup", "num_workers"]

/-- The parsed command-line namespace (string values of the two folder
arguments; the flags play no role in the claims about `main`). -/
structure ArgsNS where
  input_folder : String
  output_folder : String

/-- `getattr(args, name)` for a folder-valued attribute: `argparse` raises
`AttributeError` for a name that is not among the parser's destinations —
notably `data_folder`, which line 96 reads. -/
def nsFolderAttr (args : ArgsNS) (name : String) : Except String String :=
  if name ∈ parserDests then
    if name = "input_folder" then .ok args.input_folder
    else if name = "output_folder" then .ok args.output_folder
    else .error "TypeError: not a string attribute"
  else .error ("AttributeError: " ++ name)

/-- The filesystem as `main` sees it. -/
structure FileSystem where
  isdir : String → Bool
  listdir : String → List String

/-- Embedding of `main`:

    assert os.path.isdir(args.input_folder)
    assert not os.path.isdir(args.output_folder)
    os.makedirs(args.output_folder, exist_ok=False)
    files = []
    for filename in os.listdir(args.data_folder):
        files.append((os.path.join(args.input_folder, filename),
                      os.path.join(args.output_folder, filename)))
    ...

The returned list is the sequence of filenames for which a task (and hence
an output file of that name) is created.  Directory creation and the worker
pool do not affect which filenames appear and are not modelled further. -/
def main_model (fs : FileSystem) (args : ArgsNS) : Except String (List String) :=
  if !(fs.isdir args.input_folder) then .error "AssertionError"
  else if fs.isdir args.output_folder then .error "AssertionError"
  else
    match nsFolderAttr args "data_folder" with
    | .error e => .error e
    | .ok folder => .ok (fs.listdir folder)

/-- Two lines agree except (possibly) on the language-tag field: both are
objects whose lookups coincide at every key other than `Fasttext_language`
(either may also lack that key), or they are the same non-object value. -/
def sameExceptLang : JValue → JValue → Prop
  | .obj f1, .obj f2 => ∀ k, k ≠ "Fasttext_language" → objLookup f1 k = objLookup f2 k
  | v, w => v = w

/-! ## Supporting lemmas -/

theorem string_length_pos {t : String} (h : t ≠ "") : t.length > 0 := by
  cases t with
  | mk l =>
    cases l with
    | nil => exact absurd rfl h
    | cons c cs => simp [String.length]

theorem dictLookup_dictInsert (d : Dict) (k : String) (v : List String) :
    dictLookup (dictInsert d k v) k = some v := by
  induction d with
  | nil => simp [dictInsert, dictLookup]
  | cons p rest ih =>
    obtain ⟨k2, w⟩ := p
    by_cases hk : k2 = k
    · subst hk
      simp [dictInsert, dictLookup]
    · have hk2 : k ≠ k2 := Ne.symm hk
      by_cases h2 : rest.any (fun p => p.1 == k) = true
      · simpa [dictInsert, dictLookup, hk, hk2, h2] using ih
      · simpa [dictInsert, dictLookup, hk, hk2, h2] using ih

theorem unescapeAux_id (fuel : Nat) (cs : List Char) (h : ∀ c ∈ cs, c ≠ '&') :
    unescapeAux fuel cs = cs := by
  induction fuel generalizing cs with
  | zero => rfl
  | succ fuel ih =>
    cases cs with
    | nil => rfl
    | cons c rest =>
      have hc : c ≠ '&' := h c (List.mem_cons_self _ _)
      simp only [unescapeAux]
      rw [if_neg hc, ih rest (fun x hx => h x (List.mem_cons_of_mem _ hx))]

theorem unescapeChars_id (cs : List Char) (h : ∀ c ∈ cs, c ≠ '&') :
    unescapeChars cs = cs :=
  unescapeAux_id cs.length cs h

theorem xmlcharrefChars_id (cs : List Char) (h : ∀ c ∈ cs, c.toNat ≤ 127) :
    xmlcharrefChars cs = cs := by
  induction cs with
  | nil => rfl
  | cons c rest ih =>
    have hc : c.toNat ≤ 127 := h c (by simp)
    simp [xmlcharrefChars, hc] at ih ⊢
    exact ih (fun x hx => h x (List.mem_cons_of_mem _ hx))

theorem mem_collapseAux {c : Char} :
    ∀ (b : Bool) (cs : List Char), c ∈ collapseAux b cs → c = ' ' ∨ c ∈ cs := by
  intro b cs
  induction cs generalizing b with
  | nil => simp [collapseAux]
  | cons d rest ih =>
    intro h
    by_cases hd : d = ' '
    · subst hd
      by_cases hb : b = true
      · subst hb
        simp only [collapseAux, if_pos rfl, if_pos rfl] at h
        rcases ih true h with h' | h'
        · exact Or.inl h'
        · exact Or.inr (List.mem_cons_of_mem _ h')
      · have hb' : b = false := by revert hb; cases b <;> simp
        subst hb'
        simp only [collapseAux, if_pos rfl, if_neg Bool.false_ne_true] at h
        rcases List.mem_cons.1 h with h' | h'
        · exact Or.inl h'
        · rcases ih true h' with h'' | h''
          · exact Or.inl h''
          · exact Or.inr (List.mem_cons_of_mem _ h'')
    · simp only [collapseAux, if_neg hd] at h
      rcases List.mem_cons.1 h with h' | h'
      · exact Or.inr (h' ▸ List.mem_cons_self _ _)
      · rcases ih false h' with h'' | h''
        · exact Or.inl h''
        · exact Or.inr (List.mem_cons_of_mem _ h'')

theorem splitTagsAux_no_tag (cs : List Char) (h : ∀ c ∈ cs, c ≠ '<') :
    ∀ acc, splitTagsAux false cs acc = [acc.reverse ++ cs] := by
  induction cs with
  | nil => intro acc; simp [splitTagsAux]
  | cons c rest ih =>
    intro acc
    have hc : c ≠ '<' := h c (by simp)
    rw [splitTagsAux, if_neg hc, ih (fun x hx => h x (List.mem_cons_of_mem _ hx))]
    simp

theorem digitChar_spec : ∀ d, d < 10 → (digitChar d).isDigit = true ∧ (digitChar d).toNat = 48 + d := by
  decide

theorem decReprAux_spec :
    ∀ (f n : Nat), n < f →
      (∀ c ∈ decReprAux f n, c.isDigit = true) ∧
      decVal (decReprAux f n) = n ∧ decReprAux f n ≠ [] := by
  intro f
  induction f with
  | zero => intro n hn; omega
  | succ f ih =>
    intro n hn
    by_cases h10 : n < 10
    · refine ⟨?_, ?_, ?_⟩
      · intro c hc
        rw [decReprAux, if_pos h10] at hc
        rcases List.mem_singleton.1 hc with rfl
        exact (digitChar_spec n h10).1
      · rw [decReprAux, if_pos h10]
        have hd := (digitChar_spec n h10).2
        simp [decVal]
        omega
      · rw [decReprAux, if_pos h10]
        simp
    · have hdiv : n / 10 < f := by
        have h1 : n / 10 < n := Nat.div_lt_self (by omega) (by omega)
        omega
      obtain ⟨hdig, hval, hne⟩ := ih (n / 10) hdiv
      refine ⟨?_, ?_, ?_⟩
      · intro c hc
        rw [decReprAux] at hc
        rw [if_neg h10] at hc
        rcases List.mem_append.1 hc with h' | h'
        · exact hdig c h'
        · rcases List.mem_singleton.1 h' with rfl
          exact (digitChar_spec (n % 10) (Nat.mod_lt _ (by omega))).1
      · rw [decReprAux, if_neg h10]
        unfold decVal at hval ⊢
        rw [List.foldl_append]
        simp only [List.foldl_cons, List.foldl_nil]
        rw [hval, (digitChar_spec (n % 10) (Nat.mod_lt _ (by omega))).2]
        omega
      · rw [decReprAux, if_neg h10]
        simp

theorem decRepr_spec (n : Nat) :
    (∀ c ∈ decRepr n, c.isDigit = true) ∧ decVal (decRepr n) = n ∧ decRepr n ≠ [] :=
  decReprAux_spec (n + 1) n (Nat.lt_succ_self n)

theorem takeWhile_all_append (p : Char → Bool) (l t : List Char) (c : Char)
    (hl : ∀ x ∈ l, p x = true) (hc : p c = false) :
    (l ++ c :: t).takeWhile p = l := by
  induction l with
  | nil => simp [List.takeWhile_cons, hc]
  | cons a l ih =>
    have ha : p a = true := hl a (by simp)
    simp only [List.cons_append, List.takeWhile_cons, ha, if_pos]
    rw [ih (fun x hx => hl x (List.mem_cons_of_mem _ hx))]

theorem mem_removeNewlines {c : Char} {s : String} (h : c ∈ (removeNewlines s).data) :
    c ∈ s.data := by
  simp only [removeNewlines, List.mem_filter] at h
  exact h.1

theorem entityAt_decimal (d T : List Char) (hdig : ∀ c ∈ d, c.isDigit = true) (hne : d ≠ []) :
    entityAt ('#' :: (d ++ ';' :: T)) = some (decodeCharref (decVal d), 1 + d.length + 1) := by
  have hsemi : (';' : Char).isDigit = false := by decide
  have htake : (d ++ ';' :: T).takeWhile Char.isDigit = d :=
    takeWhile_all_append _ d T ';' hdig hsemi
  have hdrop : (d ++ ';' :: T).drop d.length = ';' :: T :=
    List.drop_left d (';' :: T)
  have hne' : d.isEmpty = false := by simpa using hne
  simp [entityAt, htake, hdrop, hne']

theorem length_le_xmlcharrefChars (cs : List Char) :
    cs.length ≤ (xmlcharrefChars cs).length := by
  induction cs with
  | nil => simp [xmlcharrefChars]
  | cons c rest ih =>
    have h1 : xmlcharrefChars (c :: rest)
        = (if c.toNat ≤ 127 then [c]
           else '&' :: '#' :: (decRepr c.toNat ++ [';'])) ++ xmlcharrefChars rest := by
      simp [xmlcharrefChars]
    rw [h1, List.length_append]
    by_cases hc : c.toNat ≤ 127
    · rw [if_pos hc]
      simp only [List.length_cons, List.length_nil]
      omega
    · rw [if_neg hc]
      simp only [List.length_cons]
      omega

theorem unescapeAux_xmlcharref (cs : List Char) :
    ∀ fuel, cs.length ≤ fuel →
      (∀ c ∈ cs, c ≠ '&' ∧ (c.toNat < 128 ∨ (159 < c.toNat ∧ ¬ invalidCodepoint c.toNat))) →
      unescapeAux fuel (xmlcharrefChars cs) = cs := by
  induction cs with
  | nil =>
    intro fuel _ _
    cases fuel with
    | zero => rfl
    | succ f => rfl
  | cons c rest ih =>
    intro fuel hf h
    obtain ⟨hamp, hrange⟩ := h c (List.mem_cons_self _ _)
    cases fuel with
    | zero => simp at hf
    | succ f =>
      have hrest : rest.length ≤ f := by
        simp only [List.length_cons] at hf
        omega
      have ihh := ih f hrest (fun x hx => h x (List.mem_cons_of_mem _ hx))
      by_cases hascii : c.toNat ≤ 127
      · have hesc : xmlcharrefChars (c :: rest) = c :: xmlcharrefChars rest := by
          simp [xmlcharrefChars, hascii]
        rw [hesc]
        simp only [unescapeAux]
        rw [if_neg hamp, ihh]
      · rcases hrange with hlt | ⟨h160, hinv⟩
        · omega
        obtain ⟨hdig, hval, hne⟩ := decRepr_spec c.toNat
        have hesc : xmlcharrefChars (c :: rest) =
            '&' :: '#' :: (decRepr c.toNat ++ ';' :: xmlcharrefChars rest) := by
          simp [xmlcharrefChars, hascii]
        have hent := entityAt_decimal (decRepr c.toNat) (xmlcharrefChars rest) hdig hne
        rw [hesc]
        simp only [unescapeAux]
        rw [if_pos trivial, hent]
        show decodeCharref (decVal (decRepr c.toNat)) ++
            unescapeAux f (('#' :: (decRepr c.toNat ++ ';' :: xmlcharrefChars rest)).drop
              (1 + (decRepr c.toNat).length + 1)) = c :: rest
        have hdrop2 : ('#' :: (decRepr c.toNat ++ ';' :: xmlcharrefChars rest)).drop
            (1 + (decRepr c.toNat).length + 1) = xmlcharrefChars rest := by
          have h1 : ('#' :: (decRepr c.toNat ++ ';' :: xmlcharrefChars rest))
              = (('#' :: decRepr c.toNat) ++ [';']) ++ xmlcharrefChars rest := by simp
          have h2 : 1 + (decRepr c.toNat).length + 1
              = (('#' :: decRepr c.toNat) ++ [';']).length := by
            simp [List.length_append]
            omega
          rw [h1, h2, List.drop_left]
        have hv : c.toNat < 55296 ∨ (57343 < c.toNat ∧ c.toNat < 1114112) := c.valid
        have hdec : decodeCharref c.toNat = [c] := by
          rw [decodeCharref, if_neg (by omega), if_neg (by omega), if_neg (by omega),
            if_neg (by omega), if_neg hinv, Char.ofNat_toNat]
        rw [hdrop2, hval, hdec, ihh]
        rfl

theorem unescape_xmlcharref_chars (cs : List Char)
    (h : ∀ c ∈ cs, c ≠ '&' ∧ (c.toNat < 128 ∨ (159 < c.toNat ∧ ¬ invalidCodepoint c.toNat))) :
    unescapeChars (xmlcharrefChars cs) = cs :=
  unescapeAux_xmlcharref cs (xmlcharrefChars cs).length (length_le_xmlcharrefChars cs) h

theorem processQuestion_empty_text (km : Bool) (d : Dict) (q : JValue)
    (hq : buildQuestionText km q = .ok "") : processQuestion km d q = .ok d := by
  simp [processQuestion, hq]

theorem processQuestion_insert (km : Bool) (d : Dict) (q : JValue) (t : String)
    (l : List String) (hq : buildQuestionText km q = .ok t) (ht : t ≠ "")
    (hl : buildAnswerList km q = .ok l) (hlne : l ≠ []) :
    processQuestion km d q = .ok (dictInsert d t l) := by
  have hlen : t.length > 0 := string_length_pos ht
  simp only [processQuestion, hq]
  rw [if_pos hlen, hl]
  simp [ht, hlne]

theorem processQuestion_no_answers (km : Bool) (d : Dict) (q : JValue) (t : String)
    (hq : buildQuestionText km q = .ok t) (hl : buildAnswerList km q = .ok []) :
    processQuestion km d q = .ok d := by
  by_cases ht : t = ""
  · exact processQuestion_empty_text km d q (ht ▸ hq)
  · have hlen : t.length > 0 := string_length_pos ht
    simp only [processQuestion, hq]
    rw [if_pos hlen, hl]
    simp

theorem processLine_lang_independent (km : Bool) (out : Dict) (v w : JValue)
    (h : sameExceptLang v w) :
    processLine false km out v = processLine false km out w := by
  cases v with
  | obj f1 =>
    cases w with
    | obj f2 =>
      simp only [sameExceptLang] at h
      have hq : objLookup f1 "Questions" = objLookup f2 "Questions" :=
        h "Questions" (by decide)
      simp [processLine, processQuestions, getKey, hq]
    | s x => simp [sameExceptLang] at h
    | arr l => simp [sameExceptLang] at h
  | s x =>
    cases w with
    | obj f2 => simp [sameExceptLang] at h
    | s y => simp only [sameExceptLang, JValue.s.injEq] at h; subst h; rfl
    | arr l => simp [sameExceptLang] at h
  | arr l =>
    cases w with
    | obj f2 => simp [sameExceptLang] at h
    | s y => simp [sameExceptLang] at h
    | arr m => simp only [sameExceptLang, JValue.arr.injEq] at h; subst h; rfl

theorem foldLines_lang_independent (km : Bool) (l1 l2 : List JValue)
    (h : List.Forall₂ sameExceptLang l1 l2) :
    ∀ out, foldLines false km out l1 = foldLines false km out l2 := by
  induction h with
  | nil => intro out; rfl
  | @cons a b as bs hab htail ih =>
    intro out
    simp only [foldLines]
    rw [processLine_lang_independent km out a b hab]
    cases processLine false km out b with
    | error e => rfl
    | ok out2 => exact ih out2

/-! ## Claims -/

/-- C1: a question whose normalized question text comes out empty — in
particular when each markup field is absent or normalizes to the `NoText`
signal, so that nothing is appended to the accumulator — is never recorded
as a key of the Output Mapping, regardless of the answers it carries: the
question loop leaves the output dict unchanged (its `Answers` are not even
read, since `len(question_text) > 0` fails). -/
theorem C1_empty_question_never_key (km : Bool) (out : Dict) (q : JValue)
    (h : buildQuestionText km q = .ok "") :
    processQuestion km out q = .ok out :=
  processQuestion_empty_text km out q h

theorem C1_witness :
    buildQuestionText false (JValue.obj []) = .ok "" ∧
    processQuestion false [("k", ["v"])] (JValue.obj []) = .ok [("k", ["v"])] :=
  ⟨rfl, C1_empty_question_never_key false [("k", ["v"])] (JValue.obj []) rfl⟩

/-- C2 counterexample: a line that parses as a JSON object but lacks the
`Questions` key crashes the aggregator — line 53 reads
`content["Questions"]` unconditionally, with no presence check, raising
`KeyError` — refuting the claim that absence of every expected field is
handled by key presence checks. -/
theorem C2_counterexample :
    generate_closed_book_format [JValue.obj []] false false
      = .error "KeyError: Questions" := rfl

/-- C2 (amended): absence of the markup fields is handled by key presence
checks and never raises — a question object carrying neither `name_markup`
nor `text_markup` is processed without error (its `Answers` key is not even
read), and an answer object without a `text_markup` key yields `None` and
is silently dropped by the answer loop, never raising — but the `Questions`
key of a line is accessed unconditionally, the language tag is accessed
unconditionally when `only_english` is set, and a question's `Answers` key
is accessed unconditionally once the question text is non-empty: a line
missing any of those raises `KeyError`. -/
theorem C2_presence_checks (km : Bool) (out : Dict)
    (fields afields : List (String × JValue))
    (h1 : objLookup fields "name_markup" = none)
    (h2 : objLookup fields "text_markup" = none)
    (h3 : objLookup afields "text_markup" = none) :
    processQuestion km out (JValue.obj fields) = .ok out ∧
    answerText km (JValue.obj afields) = .ok none ∧
    (∀ acc rest, collectAnswers km acc (JValue.obj afields :: rest)
      = collectAnswers km acc rest) ∧
    processQuestion false []
        (JValue.obj [("name_markup", JValue.s "Hi"),
          ("Answers", JValue.arr [JValue.obj [],
            JValue.obj [("text_markup", JValue.s "A")]])])
      = .ok [("Hi ", ["A"])] ∧
    generate_closed_book_format [JValue.obj []] false km = .error "KeyError: Questions" ∧
    generate_closed_book_format [JValue.obj [("Questions", JValue.arr [])]] true km
      = .error "KeyError: Fasttext_language" ∧
    processQuestion false [] (JValue.obj [("name_markup", JValue.s "Hi")])
      = .error "KeyError: Answers" := by
  have hans : answerText km (JValue.obj afields) = .ok none := by
    simp [answerText, h3]
  refine ⟨?_, hans, fun acc rest => ?_, rfl, rfl, rfl, rfl⟩
  · apply processQuestion_empty_text
    simp [buildQuestionText, markupField, h1, h2]
  · simp [collectAnswers, hans]

theorem C2_witness :
    objLookup [("Answers", JValue.arr [])] "name_markup" = none ∧
    processQuestion false [("a", ["b"])] (JValue.obj [("Answers", JValue.arr [])])
      = .ok [("a", ["b"])] ∧
    answerText false (JValue.obj [("Sample_markup", JValue.s "x")]) = .ok none ∧
    collectAnswers false ["y"]
        [JValue.obj [("Sample_markup", JValue.s "x")],
         JValue.obj [("text_markup", JValue.s "A")]]
      = collectAnswers false ["y"] [JValue.obj [("text_markup", JValue.s "A")]] := by
  have h := C2_presence_checks false [("a", ["b"])] [("Answers", JValue.arr [])]
    [("Sample_markup", JValue.s "x")] rfl rfl rfl
  exact ⟨rfl, h.1, h.2.1, h.2.2.1 ["y"] [JValue.obj [("text_markup", JValue.s "A")]]⟩

/-- C3 (code bug): the claim says every filename of `--input_folder` yields
one same-named file in `--output_folder`, but `main` enumerates
`os.listdir(args.data_folder)` (line 96) and the argument parser defines no
`data_folder` destination, so every invocation that passes the two
directory assertions raises `AttributeError` before a single task is built
and produces no output file at all. -/
theorem C3_main_crashes (fs : FileSystem) (args : ArgsNS)
    (h1 : fs.isdir args.input_folder = true)
    (h2 : fs.isdir args.output_folder = false) :
    main_model fs args = .error "AttributeError: data_folder" := by
  have hmem : "data_folder" ∉ parserDests := by decide
  simp [main_model, h1, h2, nsFolderAttr, hmem]

theorem C3_witness :
    main_model ⟨fun d => d == "in", fun _ => ["a.json"]⟩ ⟨"in", "out"⟩
      = .error "AttributeError: data_folder" :=
  C3_main_crashes ⟨fun d => d == "in", fun _ => ["a.json"]⟩ ⟨"in", "out"⟩ rfl rfl

/-- C5: `normalize("", false)` returns the `NoText` signal (`None`), not an
empty string and not an exception; and in general, whenever the lenient
parse of the newline-stripped input yields no parse tree, `extract_text`
returns `None`. -/
theorem C5_empty_is_notext :
    extract_text "" false = none ∧
    ∀ s : String, htmlTexts (removeNewlines s) = none → extract_text s false = none := by
  refine ⟨rfl, ?_⟩
  intro s h
  simp [extract_text, h]

theorem C5_witness :
    htmlTexts (removeNewlines "\n") = none ∧ extract_text "\n" false = none :=
  ⟨rfl, C5_empty_is_notext.2 "\n" rfl⟩

/-- C9: with `keep_markup=true`, `extract_text` never returns the `NoText`
signal: for every input it returns exactly the input with newline and
carriage-return characters removed and HTML entities decoded, and in
particular the empty input yields the empty string, not `NoText`. -/
theorem C9_keep_markup_total :
    (∀ s : String, extract_text s true = some (htmlUnescape (removeNewlines s))) ∧
    extract_text "" true = some "" :=
  ⟨fun _ => rfl, rfl⟩

/-- C4 counterexample: two questions of the same file normalize to the same
question text `"Q "`, the earlier with answer list `["A1"]`, the later with
an empty collected answer list; the Output Mapping still binds the key to
the earlier list `["A1"]`, not to the later occurrence's list — the later
occurrence does not replace anything, refuting the unconditional
"the later occurrence's answer list fully replaces the earlier one". -/
theorem C4_counterexample :
    generate_closed_book_format
      [JValue.obj [("Questions", JValue.arr
        [JValue.obj [("name_markup", JValue.s "Q"),
           ("Answers", JValue.arr [JValue.obj [("text_markup", JValue.s "A1")]])],
         JValue.obj [("name_markup", JValue.s "Q"),
           ("Answers", JValue.arr [])]])]]
      false false
      = Except.ok [("Q ", ["A1"])] ∧
    buildQuestionText false (JValue.obj [("name_markup", JValue.s "Q"),
        ("Answers", JValue.arr [JValue.obj [("text_markup", JValue.s "A1")]])]) = .ok "Q " ∧
    buildQuestionText false (JValue.obj [("name_markup", JValue.s "Q"),
        ("Answers", JValue.arr [])]) = .ok "Q " ∧
    buildAnswerList false (JValue.obj [("name_markup", JValue.s "Q"),
        ("Answers", JValue.arr [])]) = .ok [] ∧
    (["A1"] : List String) ≠ [] :=
  ⟨rfl, rfl, rfl, rfl, by decide⟩

/-- C4 (amended): duplicate question texts are resolved last-write-wins
without merging, qualified by the recording condition: a later occurrence
of key `t` that itself collects a non-empty answer list `l` replaces
whatever binding `t` had — the question loop updates the dict with
`dictInsert` and looking up `t` afterwards returns exactly `l` — while a
later occurrence whose collected answer list is empty is not recorded and
leaves the earlier binding unchanged. -/
theorem C4_last_write_wins (km : Bool) (d : Dict) (q : JValue) (t : String)
    (hq : buildQuestionText km q = .ok t) (ht : t ≠ "") :
    (∀ l, buildAnswerList km q = .ok l → l ≠ [] →
      processQuestion km d q = .ok (dictInsert d t l) ∧
      dictLookup (dictInsert d t l) t = some l) ∧
    (buildAnswerList km q = .ok [] → processQuestion km d q = .ok d) := by
  refine ⟨fun l hl hlne => ⟨?_, ?_⟩, fun hl => ?_⟩
  · exact processQuestion_insert km d q t l hq ht hl hlne
  · exact dictLookup_dictInsert d t l
  · exact processQuestion_no_answers km d q t hq hl

theorem C4_witness :
    processQuestion false [("Q ", ["A1"])]
      (JValue.obj [("name_markup", JValue.s "Q"),
        ("Answers", JValue.arr [JValue.obj [("text_markup", JValue.s "A2")]])])
      = .ok [("Q ", ["A2"])] ∧
    dictLookup [("Q ", ["A2"])] "Q " = some ["A2"] := by
  have h := (C4_last_write_wins false [("Q ", ["A1"])]
    (JValue.obj [("name_markup", JValue.s "Q"),
      ("Answers", JValue.arr [JValue.obj [("text_markup", JValue.s "A2")]])])
    "Q " rfl (by decide)).1 ["A2"] rfl (by decide)
  exact ⟨h.1, h.2⟩

/-- C8: when `name_markup` normalizes to a non-empty string `t` and
`text_markup` is absent or normalizes to the `NoText` signal, the question
text accumulated by the loop is `t` followed by one trailing space — the
separator is appended whenever the name segment contributes, regardless of
whether a text segment follows — and the key recorded in the Output Mapping
is `t ++ " "`, which differs from `t` itself. -/
theorem C8_trailing_space (km : Bool) (fields : List (String × JValue)) (m t : String)
    (out : Dict)
    (hname : objLookup fields "name_markup" = some (JValue.s m))
    (hext : extract_text m km = some t) (_ht : t ≠ "")
    (htext : objLookup fields "text_markup" = none ∨
      ∃ m2, objLookup fields "text_markup" = some (JValue.s m2) ∧ extract_text m2 km = none) :
    buildQuestionText km (JValue.obj fields) = .ok (t ++ " ") ∧
    (∀ al, buildAnswerList km (JValue.obj fields) = .ok al → al ≠ [] →
      processQuestion km out (JValue.obj fields) = .ok (dictInsert out (t ++ " ") al)) ∧
    t ++ " " ≠ t := by
  have hq : buildQuestionText km (JValue.obj fields) = .ok (t ++ " ") := by
    rcases htext with h | ⟨m2, hm2, hext2⟩
    · simp [buildQuestionText, markupField, hname, hext, h]
    · simp [buildQuestionText, markupField, hname, hext, hm2, hext2]
  have hqne : (t ++ " ") ≠ "" := by
    intro h0
    have hlen := congrArg String.length h0
    rw [String.length_append, show (" " : String).length = 1 from rfl,
      show ("" : String).length = 0 from rfl] at hlen
    omega
  refine ⟨hq, fun al hal hne => ?_, ?_⟩
  · exact processQuestion_insert km out (JValue.obj fields) (t ++ " ") al hq hqne hal hne
  · intro h0
    have hlen := congrArg String.length h0
    rw [String.length_append, show (" " : String).length = 1 from rfl] at hlen
    omega

theorem C8_witness :
    buildQuestionText false
      (JValue.obj [("name_markup", JValue.s "Hi"),
        ("Answers", JValue.arr [JValue.obj [("text_markup", JValue.s "A")]])])
      = .ok "Hi " ∧
    processQuestion false []
      (JValue.obj [("name_markup", JValue.s "Hi"),
        ("Answers", JValue.arr [JValue.obj [("text_markup", JValue.s "A")]])])
      = .ok [("Hi ", ["A"])] := by
  have h := C8_trailing_space false
    [("name_markup", JValue.s "Hi"),
     ("Answers", JValue.arr [JValue.obj [("text_markup", JValue.s "A")]])]
    "Hi" "Hi" [] rfl rfl (by decide) (Or.inl rfl)
  exact ⟨h.1, h.2.1 ["A"] rfl (by decide)⟩

/-- C10: when `only_english` is false the language tag is never read —
Python's `and` short-circuits before `content["Fasttext_language"]` — so
two input files whose lines differ only in their language-tag fields
(either value or absence) produce identical Output Mappings. -/
theorem C10_language_not_read (km : Bool) (l1 l2 : List JValue)
    (h : List.Forall₂ sameExceptLang l1 l2) :
    generate_closed_book_format l1 false km = generate_closed_book_format l2 false km :=
  foldLines_lang_independent km l1 l2 h []

theorem C10_witness :
    generate_closed_book_format
        [JValue.obj [("Fasttext_language", JValue.s "fr"), ("Questions", JValue.arr [])]]
        false false
      = generate_closed_book_format [JValue.obj [("Questions", JValue.arr [])]] false false ∧
    generate_closed_book_format
        [JValue.obj [("Fasttext_language", JValue.s "fr"), ("Questions", JValue.arr [])]]
        false false = .ok [] := by
  refine ⟨C10_language_not_read false _ _ (List.Forall₂.cons ?_ List.Forall₂.nil), rfl⟩
  simp only [sameExceptLang]
  intro k hk
  simp [objLookup, hk]

/-- C6 counterexample: the escape/decode pair is not a round trip that
preserves the extracted text exactly.  On input `"&amp;amp;"` the
parser-extracted text is `"&amp;"`, but escaping it to numeric character
references (an identity on this ASCII text) and then decoding entities
yields `"&"` — the final `html.unescape` decodes ampersand sequences
already present in the extracted text.  Likewise, extracted text consisting
of the noncharacter U+FDD0 escapes to `"&#64976;"`, a reference
`html.unescape` decodes to the empty string, not back to the character. -/
theorem C6_counterexample :
    htmlTexts "&amp;amp;" = some ["&amp;"] ∧
    collapseSpaces (joinSpace ["&amp;"]) = "&amp;" ∧
    htmlUnescape (xmlcharref "&amp;") = "&" ∧
    extract_text "&amp;amp;" false = some "&" ∧
    ("&" : String) ≠ "&amp;" ∧
    xmlcharref "\uFDD0" = "&#64976;" ∧
    htmlUnescape (xmlcharref "\uFDD0") = "" ∧
    ("" : String) ≠ "\uFDD0" :=
  ⟨rfl, rfl, rfl, rfl, by decide, rfl, rfl, by decide⟩

/-- C6 (amended): for extracted text containing no ampersand, no character
in the range U+0080..U+009F (which `html.unescape` remaps through
Windows-1252), and no WHATWG-invalid codepoint such as the noncharacters
U+FDD0..U+FDEF and U+xFFFE/U+xFFFF (whose numeric references decode to the
empty string), escaping to numeric character references followed by entity
decoding is an exact round trip; in particular `normalize("caf&eacute;",
false)` and `normalize("café", false)` both return the decoded non-ASCII
text `"café"`. -/
theorem C6_roundtrip (s : String)
    (h : ∀ c ∈ s.data, c ≠ '&' ∧ (c.toNat < 128 ∨ (159 < c.toNat ∧ ¬ invalidCodepoint c.toNat))) :
    htmlUnescape (xmlcharref s) = s ∧
    extract_text "caf&eacute;" false = some "café" ∧
    extract_text "café" false = some "café" := by
  refine ⟨?_, rfl, rfl⟩
  have h1 : htmlUnescape (xmlcharref s) = String.mk (unescapeChars (xmlcharrefChars s.data)) :=
    rfl
  rw [h1, unescape_xmlcharref_chars s.data h]

theorem C6_witness :
    htmlUnescape (xmlcharref "café") = "café" :=
  (C6_roundtrip "café" (by decide)).1

/-- C7 counterexample: `"caf&eacute;"` is ASCII-only and contains no tags,
yet `extract_text` returns `"café"` — the parser decodes the entity — and
not the input itself (whose spaces and newlines are already normalized), so
the claim fails on inputs containing character references. -/
theorem C7_counterexample :
    extract_text "caf&eacute;" false = some "café" ∧
    removeNewlines "caf&eacute;" = "caf&eacute;" ∧
    collapseSpaces "caf&eacute;" = "caf&eacute;" ∧
    ("café" : String) ≠ "caf&eacute;" :=
  ⟨rfl, rfl, rfl, by decide⟩

/-- C7 (amended): for every input of ASCII text characters — printable
ASCII (U+0020..U+007F) plus tab, newline and carriage return; the other
control characters are not valid libxml2 character data — containing no
tags and no ampersand or angle-bracket characters, which is non-empty after
newline removal and does not begin with parser-skipped blank characters,
`extract_text` with `keep_markup=false` returns the input itself with
newline and carriage-return characters removed and runs of ASCII spaces
collapsed to one space. -/
theorem C7_ascii_identity (s : String)
    (hne : removeNewlines s ≠ "")
    (hstart : (removeNewlines s).data.dropWhile isBlankChar = (removeNewlines s).data)
    (h : ∀ c ∈ s.data, c ≠ '&' ∧ c ≠ '<' ∧
      (c = '\t' ∨ c = '\n' ∨ c = '\r' ∨ (32 ≤ c.toNat ∧ c.toNat ≤ 127))) :
    extract_text s false = some (collapseSpaces (removeNewlines s)) := by
  have hchars : ∀ c ∈ (removeNewlines s).data, c.toNat ≤ 127 ∧ c ≠ '&' ∧ c ≠ '<' := by
    intro c hc
    obtain ⟨h1, h2, h3⟩ := h c (mem_removeNewlines hc)
    refine ⟨?_, h1, h2⟩
    rcases h3 with rfl | rfl | rfl | ⟨_, hle⟩
    · decide
    · decide
    · decide
    · exact hle
  have hdata : (removeNewlines s).data ≠ [] := by
    intro h0
    exact hne (String.ext h0)
  have hempty : (removeNewlines s).data.isEmpty = false := by
    simpa [List.isEmpty_iff] using hdata
  have hsp : splitTags (removeNewlines s).data = [(removeNewlines s).data] := by
    have h1 := splitTagsAux_no_tag (removeNewlines s).data
      (fun c hc => (hchars c hc).2.2) []
    simpa [splitTags] using h1
  have hunesc : unescapeChars (removeNewlines s).data = (removeNewlines s).data :=
    unescapeChars_id _ (fun c hc => (hchars c hc).2.1)
  have htex : htmlTexts (removeNewlines s) = some [removeNewlines s] := by
    simp only [htmlTexts, hstart, hempty, hsp]
    simp [List.filter_cons, hempty, hunesc]
  have hmem2 : ∀ c ∈ collapseAux false (removeNewlines s).data, c.toNat ≤ 127 ∧ c ≠ '&' := by
    intro c hc
    rcases mem_collapseAux false _ hc with hceq | hc'
    · subst hceq
      exact ⟨by decide, by decide⟩
    · exact ⟨(hchars c hc').1, (hchars c hc').2.1⟩
  have hxml : xmlcharref (collapseSpaces (removeNewlines s))
      = collapseSpaces (removeNewlines s) := by
    show String.mk (xmlcharrefChars (collapseAux false (removeNewlines s).data))
      = collapseSpaces (removeNewlines s)
    rw [xmlcharrefChars_id _ (fun c hc => (hmem2 c hc).1)]
    rfl
  have huns : htmlUnescape (collapseSpaces (removeNewlines s))
      = collapseSpaces (removeNewlines s) := by
    show String.mk (unescapeChars (collapseAux false (removeNewlines s).data))
      = collapseSpaces (removeNewlines s)
    rw [unescapeChars_id _ (fun c hc => (hmem2 c hc).2)]
    rfl
  simp [extract_text, htex, joinSpace, hxml, huns]

theorem C7_witness :
    removeNewlines "Hi  there\nX" = "Hi  thereX" ∧
    extract_text "Hi  there\nX" false = some "Hi thereX" := by
  refine ⟨rfl, ?_⟩
  exact C7_ascii_identity "Hi  there\nX" (by decide) rfl (by decide)

end CCQA
